import Mathlib

set_option maxRecDepth 8192

/-!
Verification of the request admission and scheduling subsystem of the
live-translator relay (`server.js`).

The embedding below is a direct shallow translation of the JavaScript
source.  Conventions used throughout:

* JavaScript millisecond timestamps (`Date.now()`) become `Int`; the
  subtraction `now - t < 60000` is evaluated over `Int` exactly as the
  JS number comparison does for integral values.
* A JS `Map` is an insertion-ordered association list
  `List (String × String)`; `Map.set` on an existing key updates the
  value in place (keeping the entry's position), otherwise appends.
* `ws.send(...)` is modelled by accumulating the outbound payloads in a
  list; external provider calls are oracles supplied in an `Env`
  record, and every call that the code issues is recorded in a trace.
* `Math.max(0, a - b)` on natural counters coincides with truncated
  `Nat` subtraction, which is used where the code clamps at zero.
* Within one `handleRequest` invocation all `Date.now()` readings are
  modelled by a single value `now` (the clock is not advanced by the
  code between those readings in any way the claims depend on).
-/

namespace LiveTranslator

/-! ## Rate limiter (`class RateLimiter`, server.js:95-135) -/

/-- The record returned by `RateLimiter.check()` (server.js:107-115). -/
structure RateCheck where
  allowed : Bool
  minuteRemaining : Nat
  dayRemaining : Nat
  minuteResetIn : Int
  dayResetIn : Int
  minuteUsed : Nat
  dayUsed : Nat
  deriving DecidableEq, Repr

/-- Per-credential sliding-window rate limiter (server.js:95-135).
`minuteRequests` / `dayRequests` are the two timestamp lists, in the
order the code pushed them. -/
structure RateLimiter where
  rpm : Nat
  rpd : Nat
  minuteRequests : List Int
  dayRequests : List Int
  deriving DecidableEq, Repr

/-- Constructor `new RateLimiter(rpm, rpd)` (server.js:96-101): both timestamp
lists start empty; nothing is loaded from any durable store. -/
def RateLimiter.new (rpm rpd : Nat) : RateLimiter :=
  ⟨rpm, rpd, [], []⟩

/-- Method `RateLimiter.check()` (server.js:103-116).  Prunes both lists in
place and returns the availability record together with the mutated
limiter.  `Math.max(0, this.rpm - len)` is `Nat` subtraction. -/
def RateLimiter.check (rl : RateLimiter) (now : Int) : RateCheck × RateLimiter :=
  let minuteRequests := rl.minuteRequests.filter (fun t => now - t < 60000)
  let dayRequests := rl.dayRequests.filter (fun t => now - t < 86400000)
  (⟨decide (minuteRequests.length < rl.rpm) && decide (dayRequests.length < rl.rpd),
    rl.rpm - minuteRequests.length,
    rl.rpd - dayRequests.length,
    match minuteRequests with
    | [] => 0
    | t0 :: _ => max 0 (60000 - (now - t0)),
    match dayRequests with
    | [] => 0
    | t0 :: _ => max 0 (86400000 - (now - t0)),
    minuteRequests.length,
    dayRequests.length⟩,
   { rl with minuteRequests := minuteRequests, dayRequests := dayRequests })

/-- Method `RateLimiter.record()` (server.js:118-122): pushes `now` onto both
lists.  No durable write of any kind happens here. -/
def RateLimiter.record (rl : RateLimiter) (now : Int) : RateLimiter :=
  { rl with minuteRequests := rl.minuteRequests ++ [now],
            dayRequests := rl.dayRequests ++ [now] }

/-- Perform `n` consecutive `record()` calls at time `now`. -/
def RateLimiter.recordN (rl : RateLimiter) (now : Int) : Nat → RateLimiter
  | 0 => rl
  | n + 1 => (rl.recordN now n).record now

/-! ## Result cache (`class TranslationCache`, server.js:195-218) -/

/-- JS `Map.get` on an insertion-ordered association list: the value
of the (unique) entry holding the key. -/
def mapGet : List (String × String) → String → Option String
  | [], _ => none
  | (k', v') :: rest, k => if k' == k then some v' else mapGet rest k

/-- JS `Map.set`: update the value in place when the key is present
(the entry keeps its position), otherwise append a fresh entry. -/
def mapSet (m : List (String × String)) (k v : String) : List (String × String) :=
  match m with
  | [] => [(k, v)]
  | (k', v') :: rest => if k' == k then (k', v) :: rest else (k', v') :: mapSet rest k v

/-- JS `Map.delete k`: removes the first entry whose key is `k`. -/
def mapDelete (m : List (String × String)) (k : String) : List (String × String) :=
  match m with
  | [] => []
  | (k', v') :: rest => if k' == k then rest else (k', v') :: mapDelete rest k

/-- The expression `persona || 'none'` (server.js:202): any falsy persona (absent or
the empty string) is replaced by the literal string `"none"`. -/
def personaStr (persona : Option String) : String :=
  match persona with
  | none => "none"
  | some s => if s = "" then "none" else s

/-- The result cache (server.js:195-218): a JS `Map` plus a capacity. -/
structure TranslationCache where
  cache : List (String × String)
  maxSize : Nat
  deriving DecidableEq, Repr

/-- Method `TranslationCache.getKey` (server.js:201-203). -/
def TranslationCache.getKey (text sourceLang targetLang : String)
    (persona : Option String) : String :=
  text ++ "|" ++ sourceLang ++ "|" ++ targetLang ++ "|" ++ personaStr persona

/-- Method `TranslationCache.get` (server.js:205-208). -/
def TranslationCache.get (c : TranslationCache) (text sourceLang targetLang : String)
    (persona : Option String) : Option String :=
  mapGet c.cache (TranslationCache.getKey text sourceLang targetLang persona)

/-- Method `TranslationCache.set` (server.js:210-217).  When at capacity the
entry under the first key of the map is deleted *before* the key of the
incoming quadruple is even computed; on an empty map
`keys().next().value` is `undefined` and the delete is a no-op. -/
def TranslationCache.set (c : TranslationCache) (text sourceLang targetLang : String)
    (persona : Option String) (result : String) : TranslationCache :=
  let cache1 :=
    if c.cache.length ≥ c.maxSize then
      match c.cache with
      | [] => c.cache
      | (k0, _) :: _ => mapDelete c.cache k0
    else c.cache
  { c with cache := mapSet cache1 (TranslationCache.getKey text sourceLang targetLang persona) result }

/-! ## Credential pool (`class KeyPool`, server.js:137-191) -/

/-- One entry of `this.keyPool` (server.js:139-144); the provider
client handle is external and not part of the state. -/
structure KeyItem where
  index : Nat
  limiter : RateLimiter
  deriving DecidableEq, Repr

/-- Method `KeyPool.getAvailableKey()` (server.js:147-155): walks the pool in
priority order, returns the first item whose `check()` is allowed.
Each `check()` prunes that item's limiter in place, so the (possibly)
mutated pool is returned as well; items after the hit are untouched. -/
def getAvailableKey : List KeyItem → Int → Option KeyItem × List KeyItem
  | [], _ => (none, [])
  | item :: rest, now =>
    let (chk, l') := item.limiter.check now
    let item' := { item with limiter := l' }
    if chk.allowed then (some item', item' :: rest)
    else
      let (found, rest') := getAvailableKey rest now
      (found, item' :: rest')

/-- The record returned by `getAggregatedStatus()` (server.js:177-185). -/
structure AggStatus where
  allowed : Bool
  minuteRemaining : Nat
  dayRemaining : Nat
  minuteUsed : Nat
  dayUsed : Nat
  waitTime : Int
  keyCount : Nat
  deriving DecidableEq, Repr

/-- Accumulator of the `for` loop in `getAggregatedStatus`
(server.js:158-175); `minResetIn = Infinity` is modelled as `none`. -/
structure AggAcc where
  totalMinuteRemaining : Nat
  totalDayRemaining : Nat
  totalMinuteUsed : Nat
  totalDayUsed : Nat
  minResetIn : Option Int
  allLimited : Bool
  deriving DecidableEq, Repr

/-- The loop body of `getAggregatedStatus` (server.js:165-175),
threading the pruning that each `check()` performs. -/
def aggLoop (now : Int) : List KeyItem → AggAcc → AggAcc × List KeyItem
  | [], acc => (acc, [])
  | item :: rest, acc =>
    let (status, l') := item.limiter.check now
    let acc' : AggAcc :=
      { totalMinuteRemaining := acc.totalMinuteRemaining + status.minuteRemaining,
        totalDayRemaining := acc.totalDayRemaining + status.dayRemaining,
        totalMinuteUsed := acc.totalMinuteUsed + status.minuteUsed,
        totalDayUsed := acc.totalDayUsed + status.dayUsed,
        allLimited := acc.allLimited && !status.allowed,
        minResetIn :=
          if !status.allowed &&
              (match acc.minResetIn with
               | none => true
               | some m => decide (status.minuteResetIn < m)) then
            some status.minuteResetIn
          else acc.minResetIn }
    let (accFin, rest') := aggLoop now rest acc'
    (accFin, { item with limiter := l' } :: rest')

/-- Method `KeyPool.getAggregatedStatus()` (server.js:157-186). -/
def getAggregatedStatus (pool : List KeyItem) (now : Int) : AggStatus × List KeyItem :=
  let (acc, pool') := aggLoop now pool ⟨0, 0, 0, 0, none, true⟩
  (⟨!acc.allLimited, acc.totalMinuteRemaining, acc.totalDayRemaining,
    acc.totalMinuteUsed, acc.totalDayUsed,
    match acc.minResetIn with
    | none => 0
    | some m => m,
    pool.length⟩, pool')

/-- The call `keyItem.limiter.record()` through the pool reference: the item
with the given (unique) index records a consumption. -/
def recordKey (pool : List KeyItem) (idx : Nat) (now : Int) : List KeyItem :=
  pool.map (fun it => if it.index = idx then { it with limiter := it.limiter.record now } else it)

/-! ## Mock translator (`mockPersonaStyles` / `mockTranslate`, server.js:66-93) -/

/-- Style `mockPersonaStyles.samurai`; the `Math.random()` ending choice is
supplied as `rand`. -/
def mockSamurai (rand : Nat) (text : String) : String :=
  let endings := ["でござる", "である", "じゃ"]
  let ending := endings.getD (rand % endings.length) ""
  ((text.replace "です" ending).replace "ます" "まする") ++ "...某もそう思うでござる。"

/-- Style `mockPersonaStyles.tsundere`. -/
def mockTsundere (rand : Nat) (text : String) : String :=
  let prefixes := ["べ、別に...", "あんたのために翻訳したわけじゃないんだから！", "ちゅ、ちゅういしてあげるわよ... "]
  let pre := prefixes.getD (rand % prefixes.length) ""
  pre ++ text

/-- Style `mockPersonaStyles.cat`. -/
def mockCat (rand : Nat) (text : String) : String :=
  let catEndings := ["にゃ", "にゃん", "ニャ"]
  let ending := catEndings.getD (rand % catEndings.length) ""
  text ++ ending ++ "🐱"

/-- Style `mockPersonaStyles.butler`. -/
def mockButler (text : String) : String :=
  "お客様、" ++ ((text.replace "です" "でございます").replace "ます" "ます") ++ "...何かご用命があればお申し付けくださいませ。"

/-- The `mockPersonaStyles[persona]` lookup (server.js:66-85). -/
def mockStyleApply (rand : Nat) (persona : String) (text : String) : Option String :=
  if persona = "samurai" then some (mockSamurai rand text)
  else if persona = "tsundere" then some (mockTsundere rand text)
  else if persona = "cat" then some (mockCat rand text)
  else if persona = "butler" then some (mockButler text)
  else none

/-- Function `mockTranslate` (server.js:87-93); `persona && persona !== 'none'`
requires a truthy persona different from the literal `'none'`. -/
def mockTranslate (rand : Nat) (text : String) (_sourceLang _targetLang : String)
    (persona : Option String) : String :=
  let result :=
    match persona with
    | none => text
    | some p =>
      if p = "" then text
      else if p = "none" then text
      else
        match mockStyleApply rand p text with
        | some r => r
        | none => text
  "[MOCK] " ++ result

/-! ## Requests, outbound messages and the environment -/

/-- The table `deeplLangMap` (server.js:56-64). -/
def deeplLangMap (lang : String) : Option String :=
  if lang = "Japanese" then some "ja"
  else if lang = "English" then some "en-US"
  else if lang = "Spanish" then some "es"
  else if lang = "Chinese" then some "zh"
  else if lang = "Korean" then some "ko"
  else if lang = "French" then some "fr"
  else if lang = "German" then some "de"
  else none

/-- Payload `message.data` of a `text_input` message (server.js:254). -/
structure TextData where
  text : String
  sourceLang : String
  targetLang : String
  persona : Option String
  deriving DecidableEq, Repr

/-- An inbound message: its `type` tag and the optional `data` payload
(a client may well send a `text_input` message without `data`). -/
structure Message where
  type : String
  data : Option TextData
  deriving DecidableEq, Repr

/-- The object pushed into the request queue (server.js:471-475): it
carries exactly the fields `ws` (the caller handle, an opaque id
here), `message`, and `translator` (whether a DeepL client handle was
initialized for this connection). -/
structure QueuedRequest where
  ws : Nat
  message : Message
  translator : Bool
  deriving DecidableEq, Repr

/-- The property read `r.type` in `RequestQueue.enqueue`
(server.js:229): the queue entries built at server.js:471-475 define
only `ws`, `message` and `translator`, so `r.type` reads an absent
property and evaluates to `undefined`, modelled as `none`. -/
def entryType (_ : QueuedRequest) : Option String := none

/-- Outbound `ws.send(JSON.stringify(...))` payloads relevant to the
scheduler.  `rateLimited` is the `rate_limit` message with
`limited: true` (its remaining-count fields are present only in the
pre-check variant, hence `Option`); `rateLimitOk` is the informational
`rate_limit` with `limited: false`. -/
inductive OutMsg where
  | text (content : String)
  | turnComplete
  | errMsg (message : String)
  | rateLimited (isDailyLimit : Bool) (waitTime : Int)
      (minuteRemaining dayRemaining : Option Nat) (message : String)
  | rateLimitOk (minuteRemaining dayRemaining : Nat)
  deriving DecidableEq, Repr

/-- One provider call issued by the scheduler (the trace of external
effects). -/
inductive PCall where
  | deepl (text targetCode : String)
  | gemini (keyIndex : Nat) (contents : String)
  deriving DecidableEq, Repr

/-- A provider-call failure as seen in the `catch (apiError)` arm:
`apiError.message` and `apiError.status || apiError.statusCode`. -/
structure GemError where
  message : String
  status : Option Int
  deriving DecidableEq, Repr

/-- The external collaborators and configuration: mock flag
(`ENABLE_MOCK`), presence of `process.env.DEEPL_API_KEY`, the random
choice the mock styles draw, and the two provider oracles.  The Gemini
oracle takes the attempt number (0 = first call, 1 = retry) and the
key index. -/
structure Env where
  enableMock : Bool
  deeplKeyPresent : Bool
  mockRand : Nat
  deepl : String → String → Except String String
  gemini : Nat → Nat → Except GemError String

/-- The module-level mutable state the scheduler touches:
`translationCache` and `keyPool.keyPool`. -/
structure ServerState where
  cache : TranslationCache
  pool : List KeyItem
  deriving DecidableEq, Repr

/-- The observable result of one `handleRequest` run: the payloads
sent, the updated state, and the provider calls issued. -/
structure HandleOut where
  sent : List OutMsg
  state : ServerState
  calls : List PCall
  deriving DecidableEq, Repr

/-- Does `sub` occur as a contiguous run of `l`?  Helper for the JS
`String.prototype.includes` model. -/
def infixCheck (sub : List Char) : List Char → Bool
  | [] => sub.isEmpty
  | c :: rest => sub.isPrefixOf (c :: rest) || infixCheck sub rest

/-- JS `s.includes(sub)` on the underlying character lists. -/
def containsSubstr (s sub : String) : Bool :=
  infixCheck sub.data s.data

/-- The quota-shape test of the catch arm (server.js:353):
`status === 429 || errorMsg.includes('429') || errorMsg.includes('rate')
|| errorMsg.includes('quota')`. -/
def isQuotaError (status : Option Int) (msg : String) : Bool :=
  status == some 429 || containsSubstr msg "429" ||
    containsSubstr msg "rate" || containsSubstr msg "quota"

/-- The `switch (persona)` augmentation of the system instruction
(server.js:325-338). -/
def personaSuffix (persona : String) : String :=
  if persona = "samurai" then
    " Use archaic Japanese (samurai style), using words like \x27でござる\x27 or \x27某\x27."
  else if persona = "tsundere" then
    " Use a tsundere personality (harsh but sometimes soft), common in anime."
  else if persona = "cat" then
    " Translate with a cat-like personality, adding \x27にゃ\x27 or \x27にゃん\x27 to sentences."
  else if persona = "butler" then
    " Use extremely polite and formal language suitable for a butler serving a master."
  else ""

/-- The base system instruction (server.js:323) with its persona
augmentation. -/
def systemInstruction (sourceLang targetLang persona : String) : String :=
  "Translate the following " ++ sourceLang ++ " text to " ++ targetLang ++
    " naturally for subtitles. Only output the translation, nothing else." ++
    personaSuffix persona

/-- The `contents` sent to the provider (server.js:343). -/
def geminiContents (instr text : String) : String :=
  instr ++ "\n\nText: \"" ++ text ++ "\""

/-- JS `String.prototype.trim`: drops leading and trailing whitespace
(modelled on the character list with `Char.isWhitespace`). -/
def jsTrim (s : String) : String :=
  ⟨((s.data.dropWhile Char.isWhitespace).reverse.dropWhile Char.isWhitespace).reverse⟩

/-- The routing test `!persona || persona === 'none'` (server.js:266):
a falsy persona (absent or empty) or the literal `'none'`. -/
def isNoPersona (p : Option String) : Bool :=
  match p with
  | none => true
  | some s => s = "" || s = "none"

/-- The delivery block (server.js:399-407): guarded by the truthiness
of `translatedText` — a non-empty string stores the result in the
cache and sends `text` followed by `turn_complete`; an empty one sends
nothing at all. -/
def deliver (st : ServerState) (d : TextData) (translatedText : String) :
    List OutMsg × ServerState :=
  if translatedText ≠ "" then
    ([OutMsg.text translatedText, OutMsg.turnComplete],
     { st with cache := st.cache.set d.text d.sourceLang d.targetLang d.persona translatedText })
  else ([], st)

/-- The Gemini branch of `handleRequest` (server.js:284-396), entered
on a cache miss with a styled persona and mock mode off. -/
def handleGemini (env : Env) (st : ServerState) (d : TextData) (now : Int) :
    Except Unit HandleOut :=
  let rateStatus := (getAggregatedStatus st.pool now).1
  let pool1 := (getAggregatedStatus st.pool now).2
  if !rateStatus.allowed then
    let isDailyLimit := rateStatus.dayRemaining == 0
    -- `Math.ceil(waitTime / 1000)` for the non-negative waitTime.
    .ok ⟨[.rateLimited isDailyLimit rateStatus.waitTime
            (some rateStatus.minuteRemaining) (some rateStatus.dayRemaining)
            (if isDailyLimit then "全APIキーの1日のリクエスト上限に達しました。"
             else "1分間のリクエスト上限に達しました。" ++
               toString ((rateStatus.waitTime + 999) / 1000) ++ "秒お待ちください。")],
         { st with pool := pool1 }, []⟩
  else
    let sends0 := [OutMsg.rateLimitOk rateStatus.minuteRemaining rateStatus.dayRemaining]
    let pool2 := (getAvailableKey pool1 now).2
    match (getAvailableKey pool1 now).1 with
    | none => .ok ⟨sends0 ++ [.errMsg "No available API keys"], { st with pool := pool2 }, []⟩
    | some keyItem =>
      let contents := geminiContents
        (systemInstruction d.sourceLang d.targetLang (d.persona.getD "")) d.text
      match env.gemini 0 keyItem.index with
      | .ok t =>
        let pool3 := recordKey pool2 keyItem.index now
        .ok ⟨sends0 ++ (deliver { st with pool := pool3 } d t).1,
             (deliver { st with pool := pool3 } d t).2, [.gemini keyItem.index contents]⟩
      | .error apiError =>
        let errorMsg := apiError.message
        if isQuotaError apiError.status errorMsg then
          let pool3 := recordKey pool2 keyItem.index now
          let pool4 := (getAvailableKey pool3 now).2
          match (getAvailableKey pool3 now).1 with
          | some retryKey =>
            match env.gemini 1 retryKey.index with
            | .ok t =>
              let pool5 := recordKey pool4 retryKey.index now
              .ok ⟨sends0 ++ (deliver { st with pool := pool5 } d t).1,
                   (deliver { st with pool := pool5 } d t).2,
                   [.gemini keyItem.index contents, .gemini retryKey.index contents]⟩
            | .error _ =>
              .ok ⟨sends0 ++ [.rateLimited
                     (containsSubstr errorMsg "quota" || containsSubstr errorMsg "daily")
                     60000 none none "Gemini APIのレートリミットに達しました。"],
                   { st with pool := pool4 },
                   [.gemini keyItem.index contents, .gemini retryKey.index contents]⟩
          | none =>
            .ok ⟨sends0 ++ [.rateLimited
                   (containsSubstr errorMsg "quota" || containsSubstr errorMsg "daily")
                   60000 none none "全てのAPIキーでレートリミットに達しました。"],
                 { st with pool := pool4 }, [.gemini keyItem.index contents]⟩
        else
          -- `throw apiError`, caught by the outer catch (server.js:408-411)
          .ok ⟨sends0 ++ [.errMsg ("Translation failed: " ++ errorMsg)],
               { st with pool := pool2 }, [.gemini keyItem.index contents]⟩

/-- Method `RequestQueue.handleRequest` (server.js:250-413).  `.error ()`
models the one uncaught rejection: when a `text_input` message carries
no `data`, the destructuring at server.js:254 throws *outside* the
try/catch and the rejection escapes `handleRequest`. -/
def handleRequest (env : Env) (st : ServerState) (req : QueuedRequest) (now : Int) :
    Except Unit HandleOut :=
  if req.message.type = "text_input" then
    match req.message.data with
    | none => .error ()
    | some d =>
      if d.text = "" || jsTrim d.text = "" then .ok ⟨[], st, []⟩
      else
        match st.cache.get d.text d.sourceLang d.targetLang d.persona with
        | some cached =>
          .ok ⟨(deliver st d cached).1, (deliver st d cached).2, []⟩
        | none =>
          if isNoPersona d.persona then
            if !req.translator then
              .ok ⟨[.errMsg (if env.deeplKeyPresent then
                      "DeepL auth error. Check if your key is Free (:fx) or Pro."
                    else "DeepL API Key (DEEPL_API_KEY) is missing.")], st, []⟩
            else
              let targetCode := (deeplLangMap d.targetLang).getD "en-US"
              match env.deepl d.text targetCode with
              | .error eMsg =>
                .ok ⟨[.errMsg ("Translation failed: " ++ eMsg)], st, [.deepl d.text targetCode]⟩
              | .ok t =>
                .ok ⟨(deliver st d t).1, (deliver st d t).2, [.deepl d.text targetCode]⟩
          else if env.enableMock then
            .ok ⟨(deliver st d (mockTranslate env.mockRand d.text d.sourceLang d.targetLang d.persona)).1,
                 (deliver st d (mockTranslate env.mockRand d.text d.sourceLang d.targetLang d.persona)).2, []⟩
          else
            handleGemini env st d now
  else
    .ok ⟨[], st, []⟩

/-! ## Queue and worker loop (`class RequestQueue`, server.js:222-248) -/

/-- Method `RequestQueue.enqueue` (server.js:228-236): the coalescing guard
searches for a queued entry with the same caller handle *and*
`r.type === 'text_input'`; on a hit the entry is replaced in place,
otherwise the request is appended. -/
def enqueue (queue : List QueuedRequest) (request : QueuedRequest) : List QueuedRequest :=
  match queue.findIdx? (fun r => r.ws == request.ws && entryType r == some "text_input") with
  | some i => queue.set i request
  | none => queue ++ [request]

/-- The outcome of one run of the worker loop: the state, the requests
left behind, the `this.processing` flag after the run, and everything
sent / called along the way. -/
structure RunOut where
  state : ServerState
  queue : List QueuedRequest
  processing : Bool
  sent : List OutMsg
  calls : List PCall
  deriving DecidableEq, Repr

/-- The `while` loop of `RequestQueue.process` (server.js:242-245).
If `handleRequest` rejects, the exception escapes `process` and
`this.processing = false` (server.js:247) never executes: the flag
stays `true` and the remaining queue is left behind. -/
def processAux (env : Env) (now : Int) : ServerState → List QueuedRequest → RunOut
  | st, [] => ⟨st, [], false, [], []⟩
  | st, r :: rest =>
    match handleRequest env st r now with
    | .error _ => ⟨st, rest, true, [], []⟩
    | .ok out =>
      let res := processAux env now out.state rest
      ⟨res.state, res.queue, res.processing, out.sent ++ res.sent, out.calls ++ res.calls⟩

/-- Method `RequestQueue.process` (server.js:238-248): the re-entrancy guard
followed by the worker loop. -/
def process (env : Env) (now : Int) (st : ServerState) (queue : List QueuedRequest)
    (processing : Bool) : RunOut :=
  if processing || queue.isEmpty then ⟨st, queue, processing, [], []⟩
  else processAux env now st queue

/-! ## Observation helpers -/

/-- The messages sent by a `handleRequest` run (none when it threw). -/
def sentOf : Except Unit HandleOut → List OutMsg
  | .ok o => o.sent
  | .error _ => []

/-- The provider calls issued by a `handleRequest` run. -/
def callsOf : Except Unit HandleOut → List PCall
  | .ok o => o.calls
  | .error _ => []

/-- Terminal outcomes for a caller: a successful translation (`text`),
a typed error (`error`), or a quota rejection (`rate_limit` with
`limited: true`).  `turn_complete` accompanies a success and the
informational `rate_limit` with `limited: false` is not terminal. -/
def isTerminal : OutMsg → Bool
  | .text _ => true
  | .errMsg _ => true
  | .rateLimited _ _ _ _ _ => true
  | .turnComplete => false
  | .rateLimitOk _ _ => false

/-- Number of terminal outcomes among the sent payloads. -/
def terminalCount (msgs : List OutMsg) : Nat :=
  (msgs.filter isTerminal).length

/-- Is this payload a quota-exceeded (`rate_limit`, `limited: true`)
message? -/
def isQuotaMsg : OutMsg → Bool
  | .rateLimited _ _ _ _ _ => true
  | _ => false

/-! ## The spec's volume-quota check (no counterpart in the source) -/

/-- Modelled from the spec: the Character/Unit Limiter of §4.2 has no
counterpart anywhere in the repository (the no-persona path of
`handleRequest` calls the volume-billed provider directly).  Per the
spec's words, its verdict is `allowed` iff
`used + unitCount <= monthlyLimit`. -/
def specUnitLimiterAllowed (monthlyLimit used unitCount : Nat) : Bool :=
  used + unitCount ≤ monthlyLimit

/-! ## Cache-insertion helpers for the eviction claims -/

/-- The request quadruple that indexes the result cache. -/
structure ReqKey where
  text : String
  sourceLang : String
  targetLang : String
  persona : Option String
  deriving DecidableEq, Repr

/-- The cache key of a request quadruple. -/
def keyOf (r : ReqKey) : String :=
  TranslationCache.getKey r.text r.sourceLang r.targetLang r.persona

/-- Perform a sequence of `TranslationCache.set` insertions. -/
def setAll (c : TranslationCache) (items : List (ReqKey × String)) : TranslationCache :=
  items.foldl (fun c it => c.set it.1.text it.1.sourceLang it.1.targetLang it.1.persona it.2) c

/-! ## Concrete scenarios used by the witnesses and counterexamples -/

/-- Environment whose DeepL oracle succeeds with `"bonjour"`. -/
def envDeepl : Env :=
  ⟨false, true, 0, fun _ _ => .ok "bonjour", fun _ _ => .error ⟨"x", none⟩⟩

/-- Environment whose DeepL oracle succeeds with the empty string. -/
def envDeeplEmpty : Env :=
  ⟨false, true, 0, fun _ _ => .ok "", fun _ _ => .error ⟨"x", none⟩⟩

/-- Environment whose Gemini oracle reports a 429 on the first attempt
and succeeds on the retry. -/
def envQuotaRetry : Env :=
  ⟨false, true, 0, fun _ _ => .error "no",
   fun a _ => if a = 0 then .error ⟨"429 hit", some 429⟩ else .ok "meow"⟩

/-- Environment whose Gemini oracle fails with a non-quota error. -/
def envGenErr : Env :=
  ⟨false, true, 0, fun _ _ => .error "no", fun _ _ => .error ⟨"boom", none⟩⟩

/-- Empty cache (capacity 100), empty credential pool. -/
def st0 : ServerState := ⟨⟨[], 100⟩, []⟩

/-- Empty cache, one fresh credential (index 0, 5 RPM / 20 RPD). -/
def stOneKey : ServerState := ⟨⟨[], 100⟩, [⟨0, RateLimiter.new 5 20⟩]⟩

/-- A plain (no-persona) `text_input` request from caller 0. -/
def reqHello : QueuedRequest :=
  ⟨0, ⟨"text_input", some ⟨"hello", "Japanese", "English", none⟩⟩, true⟩

/-- A second plain request from the same caller with a new payload. -/
def reqHello2 : QueuedRequest :=
  ⟨0, ⟨"text_input", some ⟨"world", "Japanese", "English", none⟩⟩, true⟩

/-- A styled-persona `text_input` request. -/
def reqCat : QueuedRequest :=
  ⟨0, ⟨"text_input", some ⟨"hi", "Japanese", "English", some "cat"⟩⟩, true⟩

/-- A `text_input` message that carries no `data` payload. -/
def reqNoData : QueuedRequest := ⟨1, ⟨"text_input", none⟩, true⟩

/-! ## Lemmas about the JS-map model -/

theorem mapGet_mapSet_self (m : List (String × String)) (k v : String) :
    mapGet (mapSet m k v) k = some v := by
  induction m with
  | nil => simp [mapSet, mapGet]
  | cons e rest ih =>
    obtain ⟨k', v'⟩ := e
    by_cases h : k' = k
    · simp [mapSet, mapGet, h]
    · simp only [mapSet, beq_iff_eq, if_neg h]
      simpa [mapGet, h] using ih

theorem mapGet_mapSet_ne (m : List (String × String)) (k k' v : String) (h : k' ≠ k) :
    mapGet (mapSet m k v) k' = mapGet m k' := by
  have hne : ¬ k = k' := fun hh => h hh.symm
  induction m with
  | nil => simp [mapSet, mapGet, hne]
  | cons e rest ih =>
    obtain ⟨k₀, v₀⟩ := e
    by_cases h₀ : k₀ = k
    · subst h₀
      simp [mapSet, mapGet, hne]
    · simp only [mapSet, beq_iff_eq, if_neg h₀]
      by_cases h₁ : k₀ = k'
      · simp [mapGet, h₁]
      · simpa [mapGet, h₁] using ih

theorem mapSet_append_of_not_mem (m : List (String × String)) (k v : String)
    (h : k ∉ m.map Prod.fst) : mapSet m k v = m ++ [(k, v)] := by
  induction m with
  | nil => simp [mapSet]
  | cons e rest ih =>
    obtain ⟨k₀, v₀⟩ := e
    simp only [List.map_cons, List.mem_cons, not_or] at h
    simp only [mapSet, beq_iff_eq, if_neg (Ne.symm h.1)]
    simp [ih h.2]

theorem mapSet_length_of_mem (m : List (String × String)) (k v : String)
    (h : k ∈ m.map Prod.fst) : (mapSet m k v).length = m.length := by
  induction m with
  | nil => simp at h
  | cons e rest ih =>
    obtain ⟨k₀, v₀⟩ := e
    by_cases h₀ : k₀ = k
    · simp [mapSet, h₀]
    · simp only [List.map_cons, List.mem_cons] at h
      rcases h with h | h
      · exact absurd h.symm h₀
      · simp only [mapSet, beq_iff_eq, if_neg h₀]
        simp [ih h]

theorem mapSet_length_le (m : List (String × String)) (k v : String) :
    (mapSet m k v).length ≤ m.length + 1 := by
  induction m with
  | nil => simp [mapSet]
  | cons e rest ih =>
    obtain ⟨k₀, v₀⟩ := e
    by_cases h₀ : k₀ = k
    · simp [mapSet, h₀]
    · simp only [mapSet, beq_iff_eq, if_neg h₀, List.length_cons]
      omega

theorem mapSet_map_fst_of_mem (m : List (String × String)) (k v : String)
    (h : k ∈ m.map Prod.fst) : (mapSet m k v).map Prod.fst = m.map Prod.fst := by
  induction m with
  | nil => simp at h
  | cons e rest ih =>
    obtain ⟨k₀, v₀⟩ := e
    by_cases h₀ : k₀ = k
    · simp [mapSet, h₀]
    · simp only [List.map_cons, List.mem_cons] at h
      rcases h with h | h
      · exact absurd h.symm h₀
      · simp only [mapSet, beq_iff_eq, if_neg h₀]
        simp [ih h]

theorem mapGet_eq_none_of_not_mem (m : List (String × String)) (k : String)
    (h : k ∉ m.map Prod.fst) : mapGet m k = none := by
  induction m with
  | nil => rfl
  | cons e rest ih =>
    obtain ⟨k₀, v₀⟩ := e
    simp only [List.map_cons, List.mem_cons, not_or] at h
    simpa [mapGet, Ne.symm h.1] using ih h.2

theorem mapGet_some_mem (m : List (String × String)) (k v : String)
    (h : mapGet m k = some v) : ∃ e ∈ m, e.2 = v := by
  induction m with
  | nil => simp [mapGet] at h
  | cons e rest ih =>
    obtain ⟨k₀, v₀⟩ := e
    by_cases h₀ : k₀ = k
    · simp [mapGet, h₀] at h
      exact ⟨(k₀, v₀), by simp, h⟩
    · simp only [mapGet, beq_iff_eq, if_neg h₀] at h
      obtain ⟨e, he, hv⟩ := ih h
      exact ⟨e, by simp [he], hv⟩

/-- Inserting a batch of fresh, pairwise-distinct keys while the cache
stays strictly within capacity simply appends their entries in order. -/
theorem setAll_fresh (items : List (ReqKey × String)) (c : TranslationCache)
    (hfresh : ∀ it ∈ items, keyOf it.1 ∉ c.cache.map Prod.fst)
    (hnodup : (items.map (fun it => keyOf it.1)).Nodup)
    (hcap : c.cache.length + items.length ≤ c.maxSize) :
    (setAll c items).cache = c.cache ++ items.map (fun it => (keyOf it.1, it.2)) := by
  induction items generalizing c with
  | nil => simp [setAll]
  | cons it rest ih =>
    have hlt : c.cache.length < c.maxSize := by
      simp only [List.length_cons] at hcap; omega
    have hset : (c.set it.1.text it.1.sourceLang it.1.targetLang it.1.persona it.2).cache
        = c.cache ++ [(keyOf it.1, it.2)] := by
      simp only [TranslationCache.set, if_neg (by omega : ¬ c.cache.length ≥ c.maxSize)]
      exact mapSet_append_of_not_mem _ _ _ (hfresh it (by simp))
    have hmax : (c.set it.1.text it.1.sourceLang it.1.targetLang it.1.persona it.2).maxSize
        = c.maxSize := by
      simp [TranslationCache.set]
    have hrest := ih (c.set it.1.text it.1.sourceLang it.1.targetLang it.1.persona it.2)
      (by
        intro it' hit'
        rw [hset]
        simp only [List.map_append, List.mem_append, List.map_cons, List.map_nil,
          List.mem_singleton, not_or]
        refine ⟨hfresh it' (by simp [hit']), ?_⟩
        have := hnodup
        simp only [List.map_cons, List.nodup_cons] at this
        intro hk
        exact this.1 (by
          simpa [hk] using List.mem_map_of_mem (fun it => keyOf it.1) hit'))
      (by
        have := hnodup
        simp only [List.map_cons, List.nodup_cons] at this
        exact this.2)
      (by
        rw [hset, hmax]
        simp only [List.length_append, List.length_singleton]
        simp only [List.length_cons] at hcap
        omega)
    calc (setAll c (it :: rest)).cache
        = (setAll (c.set it.1.text it.1.sourceLang it.1.targetLang it.1.persona it.2) rest).cache := by
          simp [setAll]
      _ = c.cache ++ [(keyOf it.1, it.2)] ++ rest.map (fun it => (keyOf it.1, it.2)) := by
          rw [hrest, hset]
      _ = c.cache ++ (it :: rest).map (fun it => (keyOf it.1, it.2)) := by
          simp

/-- Lemma: `TranslationCache.set` at capacity on a non-empty cache whose new
key is fresh: the head entry is evicted and the new entry appended. -/
theorem cacheSet_at_capacity (k0 v0 : String) (entries : List (String × String)) (ms : Nat)
    (hlen : ((k0, v0) :: entries).length = ms)
    (t s l : String) (p : Option String) (v : String)
    (hfresh : TranslationCache.getKey t s l p ∉ entries.map Prod.fst) :
    (TranslationCache.set ⟨(k0, v0) :: entries, ms⟩ t s l p v).cache
      = entries ++ [(TranslationCache.getKey t s l p, v)] := by
  show (mapSet (if ((k0, v0) :: entries).length ≥ ms then
          mapDelete ((k0, v0) :: entries) k0
        else (k0, v0) :: entries) (TranslationCache.getKey t s l p) v) = _
  rw [if_pos (by omega)]
  have hdel : mapDelete ((k0, v0) :: entries) k0 = entries := by simp [mapDelete]
  rw [hdel]
  exact mapSet_append_of_not_mem _ _ _ hfresh

/-- C8: after any insertion the cache size stays within the configured
maximum (for a positive capacity, from any state within the bound), and
inserting `maxSize + 1` distinct keys into an empty cache leaves exactly
`maxSize` entries with the first-inserted key absent (insertion-order
eviction). -/
theorem c8_cache_bound_and_eviction :
    (∀ (c : TranslationCache) (t s l : String) (p : Option String) (v : String),
       0 < c.maxSize → c.cache.length ≤ c.maxSize →
       (c.set t s l p v).cache.length ≤ c.maxSize) ∧
    (∀ (ms : Nat) (r0 : ReqKey × String) (rest : List (ReqKey × String)),
       0 < ms → (r0 :: rest).length = ms + 1 →
       ((r0 :: rest).map (fun it => keyOf it.1)).Nodup →
       (setAll ⟨[], ms⟩ (r0 :: rest)).cache.length = ms ∧
       mapGet (setAll ⟨[], ms⟩ (r0 :: rest)).cache (keyOf r0.1) = none) := by
  constructor
  · intro c t s l p v hpos hlen
    rcases hc : c.cache with _ | ⟨⟨k0, v0⟩, rest⟩
    · have hcache : (c.set t s l p v).cache
          = mapSet (if ([] : List (String × String)).length ≥ c.maxSize then []
              else []) (TranslationCache.getKey t s l p) v := by
        show (mapSet (if c.cache.length ≥ c.maxSize then
                match c.cache with
                | [] => c.cache
                | (k0, _) :: _ => mapDelete c.cache k0
              else c.cache) (TranslationCache.getKey t s l p) v) = _
        rw [hc]
      rw [hcache]
      have : (if ([] : List (String × String)).length ≥ c.maxSize then
          ([] : List (String × String)) else []) = [] := by split <;> rfl
      rw [this]
      simp [mapSet]; omega
    · have hcache : (c.set t s l p v).cache
          = mapSet (if ((k0, v0) :: rest).length ≥ c.maxSize then
              mapDelete ((k0, v0) :: rest) k0
            else (k0, v0) :: rest) (TranslationCache.getKey t s l p) v := by
        show (mapSet (if c.cache.length ≥ c.maxSize then
                match c.cache with
                | [] => c.cache
                | (k0, _) :: _ => mapDelete c.cache k0
              else c.cache) (TranslationCache.getKey t s l p) v) = _
        rw [hc]
      rw [hcache]
      rw [hc] at hlen
      by_cases hge : ((k0, v0) :: rest).length ≥ c.maxSize
      · rw [if_pos hge]
        have hdel : mapDelete ((k0, v0) :: rest) k0 = rest := by simp [mapDelete]
        rw [hdel]
        have hle := mapSet_length_le rest (TranslationCache.getKey t s l p) v
        simp only [List.length_cons] at hlen hge
        omega
      · rw [if_neg hge]
        have hle := mapSet_length_le ((k0, v0) :: rest) (TranslationCache.getKey t s l p) v
        simp only [List.length_cons] at hle hge ⊢
        omega
  · intro ms r0 rest hms hlen hnodup
    obtain ⟨rest', rLast, rfl⟩ : ∃ L b, rest = L ++ [b] := by
      rcases (List.eq_nil_or_concat' rest) with h | h
      · exfalso; subst h; simp at hlen; omega
      · exact h
    have hconcat : r0 :: (rest' ++ [rLast]) = (r0 :: rest') ++ [rLast] := by simp
    have hlen' : (r0 :: rest').length = ms := by
      simp at hlen ⊢; omega
    have hnodup' : ((r0 :: rest').map (fun it => keyOf it.1) ++ [keyOf rLast.1]).Nodup := by
      have h2 := hnodup
      rw [hconcat] at h2
      simpa using h2
    have hnodupFront : ((r0 :: rest').map (fun it => keyOf it.1)).Nodup :=
      (List.nodup_append.mp hnodup').1
    have hkeyNe : keyOf rLast.1 ∉ ((r0 :: rest').map (fun it => keyOf it.1)) := by
      intro hmem
      exact (List.disjoint_of_nodup_append hnodup') hmem (by simp)
    have hr0NotRest : keyOf r0.1 ∉ rest'.map (fun it => keyOf it.1) := by
      have := hnodupFront
      simp only [List.map_cons, List.nodup_cons] at this
      exact this.1
    have hr0NeLast : keyOf r0.1 ≠ keyOf rLast.1 := by
      intro hh
      exact hkeyNe (by simp [← hh])
    have hfront := setAll_fresh (r0 :: rest') ⟨[], ms⟩ (by simp) hnodupFront
      (by simp [hlen'])
    have hmaxAll : ∀ (items : List (ReqKey × String)) (c : TranslationCache),
        (setAll c items).maxSize = c.maxSize := by
      intro items
      induction items with
      | nil => intro c; rfl
      | cons it rest ih =>
        intro c
        simp only [setAll] at ih ⊢
        rw [show List.foldl (fun c it => TranslationCache.set c it.1.text it.1.sourceLang
              it.1.targetLang it.1.persona it.2) c (it :: rest)
            = List.foldl (fun c it => TranslationCache.set c it.1.text it.1.sourceLang
              it.1.targetLang it.1.persona it.2)
              (TranslationCache.set c it.1.text it.1.sourceLang it.1.targetLang
                it.1.persona it.2) rest from rfl]
        rw [ih]
        rfl
    have hfrontEq : setAll ⟨[], ms⟩ (r0 :: rest')
        = ⟨(keyOf r0.1, r0.2) :: rest'.map (fun it => (keyOf it.1, it.2)), ms⟩ := by
      have h1 := hfront
      have h2 := hmaxAll (r0 :: rest') ⟨[], ms⟩
      cases hsa : setAll ⟨[], ms⟩ (r0 :: rest') with
      | mk cc mm =>
        rw [hsa] at h1 h2
        simp only at h1 h2
        simp only [List.nil_append, List.map_cons] at h1
        rw [h1, h2]
    have hsplit : setAll ⟨[], ms⟩ (r0 :: (rest' ++ [rLast]))
        = TranslationCache.set (setAll ⟨[], ms⟩ (r0 :: rest'))
            rLast.1.text rLast.1.sourceLang rLast.1.targetLang rLast.1.persona rLast.2 := by
      rw [hconcat]
      simp [setAll, List.foldl_append]
    have hERkeys : (rest'.map (fun it => (keyOf it.1, it.2))).map Prod.fst
        = rest'.map (fun it => keyOf it.1) := by
      simp [List.map_map, Function.comp]
    have hfinal : (setAll ⟨[], ms⟩ (r0 :: (rest' ++ [rLast]))).cache
        = rest'.map (fun it => (keyOf it.1, it.2)) ++ [(keyOf rLast.1, rLast.2)] := by
      rw [hsplit, hfrontEq]
      exact cacheSet_at_capacity _ _ _ _ (by simpa using hlen') _ _ _ _ _
        (by
          rw [hERkeys]
          intro hmem
          apply hkeyNe
          simp only [List.map_cons, List.mem_cons]
          right
          exact hmem)
    refine ⟨?_, ?_⟩
    · rw [hfinal]
      simp only [List.length_append, List.length_map, List.length_singleton]
      simp only [List.length_cons] at hlen'
      omega
    · rw [hfinal]
      apply mapGet_eq_none_of_not_mem
      simp only [List.map_append, hERkeys]
      intro hmem
      rcases List.mem_append.mp hmem with h | h
      · exact hr0NotRest h
      · simp at h
        exact hr0NeLast h

/-- C8 witness: concrete instances of both parts at capacity 1. -/
theorem c8_witness :
    ((⟨[("a", "1")], 1⟩ : TranslationCache).set "b" "s" "l" none "2").cache.length ≤ 1 ∧
    (setAll ⟨[], 1⟩ [(⟨"a", "s", "l", none⟩, "1"), (⟨"b", "s", "l", none⟩, "2")]).cache.length = 1 ∧
    mapGet (setAll ⟨[], 1⟩ [(⟨"a", "s", "l", none⟩, "1"), (⟨"b", "s", "l", none⟩, "2")]).cache
      (keyOf ⟨"a", "s", "l", none⟩) = none :=
  ⟨c8_cache_bound_and_eviction.1 ⟨[("a", "1")], 1⟩ "b" "s" "l" none "2" (by decide) (by decide),
   (c8_cache_bound_and_eviction.2 1 (⟨"a", "s", "l", none⟩, "1") [(⟨"b", "s", "l", none⟩, "2")]
     (by decide) (by decide) (by decide)).1,
   (c8_cache_bound_and_eviction.2 1 (⟨"a", "s", "l", none⟩, "1") [(⟨"b", "s", "l", none⟩, "2")]
     (by decide) (by decide) (by decide)).2⟩

/-- C9 counterexample: the unescaped `|` delimiter makes distinct
quadruples cache-equivalent — `("a|b", "c", "d", e)` and
`("a", "b|c", "d", e)` share one key, and a value put under the first
is returned by a get under the second, although the fields differ. -/
theorem c9_counterexample :
    TranslationCache.getKey "a|b" "c" "d" (some "e") =
      TranslationCache.getKey "a" "b|c" "d" (some "e") ∧
    (TranslationCache.set ⟨[], 100⟩ "a|b" "c" "d" (some "e") "val").get
      "a" "b|c" "d" (some "e") = some "val" ∧
    ¬(("a|b" : String) = "a" ∧ ("c" : String) = "b|c") := by
  refine ⟨rfl, rfl, ?_⟩
  intro ⟨h, _⟩
  simp at h

/-- C9 (amended): matching on all four fields is *sufficient* for
cache-equivalence — a put under a quadruple is returned by a get under
the same quadruple; the necessity direction fails (see the
counterexample). -/
theorem c9_equal_fields_hit (c : TranslationCache) (t s l : String)
    (p : Option String) (v : String) :
    (c.set t s l p v).get t s l p = some v := by
  show mapGet (TranslationCache.set c t s l p v).cache (TranslationCache.getKey t s l p)
      = some v
  show mapGet (mapSet _ (TranslationCache.getKey t s l p) v) (TranslationCache.getKey t s l p)
      = some v
  exact mapGet_mapSet_self _ _ _

/-- C10: `set` with a key already present, on a cache at capacity,
still deletes the oldest entry first: the head entry disappears, the
existing key is updated in place, and the size drops to
`maxSize - 1`. -/
theorem c10_update_at_capacity_evicts (ms : Nat) (e0 : String × String)
    (rest : List (String × String)) (t s l : String) (p : Option String) (v : String)
    (hlen : (e0 :: rest).length = ms)
    (hnodup : ((e0 :: rest).map Prod.fst).Nodup)
    (hmem : TranslationCache.getKey t s l p ∈ rest.map Prod.fst) :
    (TranslationCache.set ⟨e0 :: rest, ms⟩ t s l p v).cache.length = ms - 1 ∧
    mapGet (TranslationCache.set ⟨e0 :: rest, ms⟩ t s l p v).cache e0.1 = none ∧
    mapGet (TranslationCache.set ⟨e0 :: rest, ms⟩ t s l p v).cache
      (TranslationCache.getKey t s l p) = some v := by
  obtain ⟨k0, v0⟩ := e0
  have hke : TranslationCache.getKey t s l p ≠ k0 := by
    intro hh
    have := hnodup
    simp only [List.map_cons, List.nodup_cons] at this
    exact this.1 (hh ▸ hmem)
  have hk0rest : k0 ∉ rest.map Prod.fst := by
    have := hnodup
    simp only [List.map_cons, List.nodup_cons] at this
    exact this.1
  have hcache : (TranslationCache.set ⟨(k0, v0) :: rest, ms⟩ t s l p v).cache
      = mapSet rest (TranslationCache.getKey t s l p) v := by
    show (mapSet (if ((k0, v0) :: rest).length ≥ ms then
            mapDelete ((k0, v0) :: rest) k0
          else (k0, v0) :: rest) (TranslationCache.getKey t s l p) v) = _
    rw [if_pos (by omega)]
    have hdel : mapDelete ((k0, v0) :: rest) k0 = rest := by simp [mapDelete]
    rw [hdel]
  refine ⟨?_, ?_, ?_⟩
  · rw [hcache, mapSet_length_of_mem _ _ _ hmem]
    simp only [List.length_cons] at hlen
    omega
  · rw [hcache, mapGet_mapSet_ne _ _ _ _ (fun hh => hke hh.symm)]
    exact mapGet_eq_none_of_not_mem _ _ hk0rest
  · rw [hcache]
    exact mapGet_mapSet_self _ _ _

/-- C10 witness: a concrete 2-entry cache at capacity; updating the
newer entry's key evicts the unrelated oldest entry. -/
theorem c10_witness :
    (TranslationCache.set ⟨[("x", "1"), ("a|s|l|none", "2")], 2⟩ "a" "s" "l" none "3").cache.length = 1 ∧
    mapGet (TranslationCache.set ⟨[("x", "1"), ("a|s|l|none", "2")], 2⟩ "a" "s" "l" none "3").cache
      "x" = none ∧
    mapGet (TranslationCache.set ⟨[("x", "1"), ("a|s|l|none", "2")], 2⟩ "a" "s" "l" none "3").cache
      (TranslationCache.getKey "a" "s" "l" none) = some "3" :=
  c10_update_at_capacity_evicts 2 ("x", "1") [("a|s|l|none", "2")] "a" "s" "l" none "3"
    (by decide) (by decide) (by decide)

/-- C1: coalescing never happens in the code.  The guard at
server.js:229 reads `r.type` from the queued records, which carry no
such property (`undefined`), so the `findIndex` never matches: a second
`text_input` request from a caller whose first request is still queued
is *appended*, and running the worker then processes both payloads,
issuing two provider calls for that one caller — the claim promised an
in-place replacement and exactly one processed request (the second
payload). -/
theorem c1_enqueue_appends_for_same_caller :
    enqueue (enqueue [] reqHello) reqHello2 = [reqHello, reqHello2] ∧
    (process envDeepl 0 st0 (enqueue (enqueue [] reqHello) reqHello2) false).calls.length = 2 := by
  decide

/-- C4 counterexample: quota state does not survive a restart.  A
limiter with `rpm = 1` that recorded one consumption reports
`allowed = false`; the only restart the code has is re-running the
constructor (there is no durable snapshot anywhere), and the freshly
constructed limiter reports `allowed = true` at the same instant. -/
theorem c4_counterexample :
    (((RateLimiter.new 1 20).record 0).check 0).1.allowed = false ∧
    ((RateLimiter.new 1 20).check 0).1.allowed = true := by
  decide

/-- C4 (amended): the limiter keeps its state only in memory — the
constructor starts from empty timestamp lists and `record()` writes
nothing durable — so after any restart the first `check()` verdict is
unconditionally `allowed` (for positive limits), regardless of any
pre-restart consumption. -/
theorem c4_restart_forgets_state (rpm rpd : Nat) (now : Int)
    (h1 : 0 < rpm) (h2 : 0 < rpd) :
    ((RateLimiter.new rpm rpd).check now).1.allowed = true := by
  simp [RateLimiter.new, RateLimiter.check, h1, h2]

/-- C4 witness. -/
theorem c4_witness : ((RateLimiter.new 1 20).check 0).1.allowed = true :=
  c4_restart_forgets_state 1 20 0 (by decide) (by decide)

/-- C5: a `text_input` message without a `data` payload aborts the
worker loop.  The destructuring at server.js:254 happens before the
per-request try/catch, its exception escapes `process`, and
`this.processing` is never reset: the well-formed request queued behind
the malformed one is left unprocessed, and every later `process()` run
bails out on the re-entrancy guard — the scheduler is permanently
stuck. -/
theorem c5_malformed_data_stalls_loop :
    process envDeepl 0 st0 [reqNoData, reqHello] false = ⟨st0, [reqHello], true, [], []⟩ ∧
    process envDeepl 0 st0 [reqHello] true = ⟨st0, [reqHello], true, [], []⟩ := by
  decide

/-! ## Sliding-window lemmas (C6) -/

theorem recordN_new (L D n : Nat) (t : Int) :
    (RateLimiter.new L D).recordN t n = ⟨L, D, List.replicate n t, List.replicate n t⟩ := by
  induction n with
  | zero => rfl
  | succ n ih =>
    show ((RateLimiter.new L D).recordN t n).record t = _
    rw [ih]
    simp [RateLimiter.record, List.replicate_succ']

theorem filter_replicate_of_pos {p : Int → Bool} {t : Int} (h : p t = true) (n : Nat) :
    (List.replicate n t).filter p = List.replicate n t := by
  induction n with
  | zero => rfl
  | succ n ih => simp [List.replicate_succ, List.filter_cons, h, ih]

theorem filter_replicate_of_neg {p : Int → Bool} {t : Int} (h : p t = false) (n : Nat) :
    (List.replicate n t).filter p = [] := by
  induction n with
  | zero => rfl
  | succ n ih => simp [List.replicate_succ, List.filter_cons, h, ih]

/-- C6 counterexample: with `L = D = 1` the claimed "allowed again at
`t + 60s + ε`" is false.  After one `record()` at `t = 0`, `check()`
at `60001` prunes the minute list empty (`minuteUsed = 0`) but the
24h list still holds the recorded timestamp (`dayUsed = 1 ≥ D`), so
the limiter is still not allowed. -/
theorem c6_counterexample :
    (((RateLimiter.new 1 1).recordN 0 1).check 60001).1.allowed = false ∧
    (((RateLimiter.new 1 1).recordN 0 1).check 60001).1.minuteUsed = 0 ∧
    (((RateLimiter.new 1 1).recordN 0 1).check 60001).1.dayUsed = 1 := by
  decide

/-- C6 (amended): sliding-window behavior of the rate limiter.  After
`L` consecutive `record()` calls at time `t` on a fresh limiter with
short limit `L > 0` and long limit `D > L` (for `D ≤ L` the 24h window
still holds the `L` records and the limiter stays disallowed — see the
counterexample), `check()` at `t` is not allowed, reports
`minuteUsed = L` with `minuteRemaining + minuteUsed = L`, and a
reset-in of `60000 - (t - t)`; at `t + 60000 + ε` the verdict is
allowed again.  Moreover each `check()` prunes both timestamp lists to
the entries newer than the respective window, `allowed` holds iff both
pruned counts are below their limits, and for each of the two windows
the reset-in time is zero for an empty pruned list and
`windowDuration - (now - oldest)` otherwise (the head of a sorted
pruned list being its oldest element). -/
theorem c6_sliding_window (L D : Nat) (t ε : Int) (hL : 0 < L) (hLD : L < D) (hε : 0 < ε) :
    ((((RateLimiter.new L D).recordN t L).check t).1.allowed = false) ∧
    ((((RateLimiter.new L D).recordN t L).check t).1.minuteUsed = L) ∧
    ((((RateLimiter.new L D).recordN t L).check t).1.minuteRemaining +
      (((RateLimiter.new L D).recordN t L).check t).1.minuteUsed = L) ∧
    ((((RateLimiter.new L D).recordN t L).check t).1.minuteResetIn = 60000 - (t - t)) ∧
    ((((RateLimiter.new L D).recordN t L).check (t + 60000 + ε)).1.allowed = true) ∧
    (∀ (rl : RateLimiter) (now : Int),
      ((rl.check now).2.minuteRequests = rl.minuteRequests.filter (fun s => now - s < 60000)) ∧
      ((rl.check now).2.dayRequests = rl.dayRequests.filter (fun s => now - s < 86400000)) ∧
      ((rl.check now).1.allowed = true ↔
        ((rl.minuteRequests.filter (fun s => now - s < 60000)).length < rl.rpm ∧
         (rl.dayRequests.filter (fun s => now - s < 86400000)).length < rl.rpd)) ∧
      (rl.minuteRequests.filter (fun s => now - s < 60000) = [] →
        (rl.check now).1.minuteResetIn = 0) ∧
      (∀ t0 resttl, rl.minuteRequests.Pairwise (· ≤ ·) →
        rl.minuteRequests.filter (fun s => now - s < 60000) = t0 :: resttl →
        ((rl.check now).1.minuteResetIn = 60000 - (now - t0) ∧
         ∀ x ∈ t0 :: resttl, t0 ≤ x)) ∧
      (rl.dayRequests.filter (fun s => now - s < 86400000) = [] →
        (rl.check now).1.dayResetIn = 0) ∧
      (∀ t0 resttl, rl.dayRequests.Pairwise (· ≤ ·) →
        rl.dayRequests.filter (fun s => now - s < 86400000) = t0 :: resttl →
        ((rl.check now).1.dayResetIn = 86400000 - (now - t0) ∧
         ∀ x ∈ t0 :: resttl, t0 ≤ x))) := by
  have hrec := recordN_new L D L t
  have hminFull : (List.replicate L t).filter (fun s => decide (t - s < 60000))
      = List.replicate L t := filter_replicate_of_pos (by simp) L
  have hdayFull : (List.replicate L t).filter (fun s => decide (t - s < 86400000))
      = List.replicate L t := filter_replicate_of_pos (by simp) L
  have hminLate : (List.replicate L t).filter (fun s => decide (t + 60000 + ε - s < 60000))
      = [] := filter_replicate_of_neg (by simp; omega) L
  obtain ⟨L', rfl⟩ : ∃ L', L = L' + 1 := ⟨L - 1, (Nat.succ_pred_eq_of_pos hL).symm⟩
  refine ⟨?_, ?_, ?_, ?_, ?_, ?_⟩
  · rw [hrec]
    simp only [RateLimiter.check, hminFull, hdayFull, List.length_replicate]
    simp
  · rw [hrec]
    simp only [RateLimiter.check, hminFull, List.length_replicate]
  · rw [hrec]
    simp only [RateLimiter.check, hminFull, List.length_replicate]
    omega
  · rw [hrec]
    simp only [RateLimiter.check, hminFull, List.replicate_succ]
    simp
  · rw [hrec]
    simp only [RateLimiter.check, hminLate, List.length_nil]
    have hdaylen := List.length_filter_le (fun s => decide (t + 60000 + ε - s < 86400000))
      (List.replicate (L' + 1) t)
    simp only [List.length_replicate] at hdaylen
    simp only [Bool.and_eq_true, decide_eq_true_eq]
    omega
  · intro rl now
    refine ⟨rfl, rfl, ?_, ?_, ?_, ?_, ?_⟩
    · simp only [RateLimiter.check, Bool.and_eq_true, decide_eq_true_eq]
    · intro h
      simp only [RateLimiter.check, h]
    · intro t0 resttl hpair hfilter
      have ht0mem : t0 ∈ rl.minuteRequests.filter (fun s => now - s < 60000) := by
        rw [hfilter]; simp
      have ht0 : now - t0 < 60000 := by
        have := List.of_mem_filter ht0mem
        simpa using this
      constructor
      · simp only [RateLimiter.check, hfilter]
        omega
      · have hpairFiltered : (rl.minuteRequests.filter (fun s => now - s < 60000)).Pairwise (· ≤ ·) :=
          List.Pairwise.sublist (List.filter_sublist _) hpair
        rw [hfilter] at hpairFiltered
        intro x hx
        rcases List.mem_cons.mp hx with h | h
        · exact h ▸ le_refl t0
        · exact (List.pairwise_cons.mp hpairFiltered).1 x h
    · intro h
      simp only [RateLimiter.check, h]
    · intro t0 resttl hpair hfilter
      have ht0mem : t0 ∈ rl.dayRequests.filter (fun s => now - s < 86400000) := by
        rw [hfilter]; simp
      have ht0 : now - t0 < 86400000 := by
        have := List.of_mem_filter ht0mem
        simpa using this
      constructor
      · simp only [RateLimiter.check, hfilter]
        omega
      · have hpairFiltered : (rl.dayRequests.filter (fun s => now - s < 86400000)).Pairwise (· ≤ ·) :=
          List.Pairwise.sublist (List.filter_sublist _) hpair
        rw [hfilter] at hpairFiltered
        intro x hx
        rcases List.mem_cons.mp hx with h | h
        · exact h ▸ le_refl t0
        · exact (List.pairwise_cons.mp hpairFiltered).1 x h

/-- C6 witness: `L = 1`, `D = 2`, records at `t = 0`, `ε = 1`. -/
theorem c6_witness :
    ((((RateLimiter.new 1 2).recordN 0 1).check 0).1.allowed = false) ∧
    ((((RateLimiter.new 1 2).recordN 0 1).check 60001).1.allowed = true) :=
  ⟨(c6_sliding_window 1 2 0 1 (by decide) (by decide) (by decide)).1,
   (c6_sliding_window 1 2 0 1 (by decide) (by decide) (by decide)).2.2.2.2.1⟩

/-! ## The volume-billed (DeepL) path (C3) -/

theorem deliver_pool (st : ServerState) (d : TextData) (tx : String) :
    ((deliver st d tx).2).pool = st.pool := by
  simp only [deliver]
  split <;> rfl

theorem deliver_no_quota (st : ServerState) (d : TextData) (tx : String) :
    ((deliver st d tx).1).filter isQuotaMsg = [] := by
  simp only [deliver]
  split <;> rfl

/-- Routing of a non-empty, uncached, no-persona request with a
configured translator: it goes straight to the DeepL call. -/
theorem handleRequest_deepl_route (env : Env) (st : ServerState) (req : QueuedRequest)
    (d : TextData) (now : Int)
    (htype : req.message.type = "text_input") (hdata : req.message.data = some d)
    (htext : jsTrim d.text ≠ "")
    (hmiss : st.cache.get d.text d.sourceLang d.targetLang d.persona = none)
    (hpersona : isNoPersona d.persona = true)
    (htr : req.translator = true) :
    handleRequest env st req now =
      match env.deepl d.text ((deeplLangMap d.targetLang).getD "en-US") with
      | .error eMsg =>
        .ok ⟨[.errMsg ("Translation failed: " ++ eMsg)], st,
             [.deepl d.text ((deeplLangMap d.targetLang).getD "en-US")]⟩
      | .ok tx =>
        .ok ⟨(deliver st d tx).1, (deliver st d tx).2,
             [.deepl d.text ((deeplLangMap d.targetLang).getD "en-US")]⟩ := by
  have htext0 : ¬ d.text = "" := fun h => htext (by rw [h]; rfl)
  simp only [handleRequest, htype, hdata, if_pos rfl, htext0, htext, hmiss, hpersona, htr,
    if_true, Bool.not_true, if_false, or_self, ite_false]
  simp

/-- C3 counterexample: for the concrete no-persona request `"hello"`
(5 characters), the spec's unit check with a monthly limit of 3 and no
prior usage disallows, yet the code calls the volume-billed provider
anyway, sends no quota-exceeded message, and delivers the translation —
there is no Unit Limiter in the code to consult. -/
theorem c3_counterexample :
    specUnitLimiterAllowed 3 0 ("hello".length) = false ∧
    callsOf (handleRequest envDeepl st0 reqHello 0) = [.deepl "hello" "en-US"] ∧
    (sentOf (handleRequest envDeepl st0 reqHello 0)).filter isQuotaMsg = [] ∧
    sentOf (handleRequest envDeepl st0 reqHello 0) = [.text "bonjour", .turnComplete] := by
  decide

/-- C3 (amended): the no-persona path performs no unit/quota
accounting at all: whenever the translator is configured, the trimmed
text is non-empty and the result is uncached, the DeepL provider is
called unconditionally (regardless of the input's character length),
no quota-exceeded message is ever sent on this path, and no
consumption is recorded anywhere (the credential pool is untouched). -/
theorem c3_deepl_unconditional (env : Env) (st : ServerState) (req : QueuedRequest)
    (d : TextData) (now : Int)
    (htype : req.message.type = "text_input") (hdata : req.message.data = some d)
    (htext : jsTrim d.text ≠ "")
    (hmiss : st.cache.get d.text d.sourceLang d.targetLang d.persona = none)
    (hpersona : isNoPersona d.persona = true)
    (htr : req.translator = true) :
    callsOf (handleRequest env st req now) =
      [PCall.deepl d.text ((deeplLangMap d.targetLang).getD "en-US")] ∧
    (sentOf (handleRequest env st req now)).filter isQuotaMsg = [] ∧
    (∀ out, handleRequest env st req now = Except.ok out → out.state.pool = st.pool) := by
  rw [handleRequest_deepl_route env st req d now htype hdata htext hmiss hpersona htr]
  rcases henv : env.deepl d.text ((deeplLangMap d.targetLang).getD "en-US") with e | tx
  · refine ⟨rfl, rfl, ?_⟩
    intro out h
    cases h
    rfl
  · refine ⟨rfl, deliver_no_quota st d tx, ?_⟩
    intro out h
    cases h
    exact deliver_pool st d tx

/-- C3 witness: the amended theorem at the concrete scenario. -/
theorem c3_witness :
    callsOf (handleRequest envDeepl st0 reqHello 0) =
      [PCall.deepl "hello" ((deeplLangMap "English").getD "en-US")] ∧
    (sentOf (handleRequest envDeepl st0 reqHello 0)).filter isQuotaMsg = [] :=
  ⟨(c3_deepl_unconditional envDeepl st0 reqHello ⟨"hello", "Japanese", "English", none⟩ 0
      rfl rfl (by decide) rfl rfl rfl).1,
   (c3_deepl_unconditional envDeepl st0 reqHello ⟨"hello", "Japanese", "English", none⟩ 0
      rfl rfl (by decide) rfl rfl rfl).2.1⟩

/-! ## Exactly-one-terminal-outcome lemmas (C2) -/

theorem terminalCount_append (a b : List OutMsg) :
    terminalCount (a ++ b) = terminalCount a + terminalCount b := by
  simp [terminalCount, List.filter_append]

theorem terminalCount_deliver (st : ServerState) (d : TextData) (tx : String) (h : tx ≠ "") :
    terminalCount (deliver st d tx).1 = 1 := by
  simp only [deliver, if_pos h]
  rfl

theorem append_mock_ne_empty (s : String) : "[MOCK] " ++ s ≠ "" := by
  intro h
  have hd := congrArg String.data h
  rw [String.data_append] at hd
  have h1 := List.append_eq_nil.mp hd
  exact absurd h1.1 (by decide)

theorem mockTranslate_ne_empty (r : Nat) (a b c : String) (p : Option String) :
    mockTranslate r a b c p ≠ "" := by
  unfold mockTranslate
  exact append_mock_ne_empty _

/-- On the Gemini branch every run sends exactly one terminal outcome,
provided successful provider responses are non-empty. -/
theorem handleGemini_one_terminal (env : Env) (st : ServerState) (d : TextData) (now : Int)
    (hgem : ∀ a k r, env.gemini a k = .ok r → r ≠ "") :
    terminalCount (sentOf (handleGemini env st d now)) = 1 := by
  simp only [handleGemini]
  cases hall : (getAggregatedStatus st.pool now).1.allowed with
  | false => simp [hall, sentOf, terminalCount, isTerminal]
  | true =>
    rcases hk : (getAvailableKey (getAggregatedStatus st.pool now).2 now).1 with _ | k
    · simp [hall, hk, sentOf, terminalCount, isTerminal]
    · rcases hg : env.gemini 0 k.index with e | tx
      · by_cases hq : isQuotaError e.status e.message
        · rcases hr : (getAvailableKey (recordKey (getAvailableKey
              (getAggregatedStatus st.pool now).2 now).2 k.index now) now).1 with _ | rk
          · simp [hall, hk, hg, hq, hr, sentOf, terminalCount, isTerminal]
          · rcases hg2 : env.gemini 1 rk.index with e2 | t2
            · simp [hall, hk, hg, hq, hr, hg2, sentOf, terminalCount, isTerminal]
            · have hne := hgem 1 rk.index t2 hg2
              simp [hall, hk, hg, hq, hr, hg2, sentOf, terminalCount, isTerminal,
                List.filter_append, deliver, hne]
        · simp [hall, hk, hg, hq, sentOf, terminalCount, isTerminal]
      · have hne := hgem 0 k.index tx hg
        simp [hall, hk, hg, sentOf, terminalCount, isTerminal, List.filter_append,
          deliver, hne]

/-- C2 counterexample: a processed request whose trimmed text is
non-empty receives *no* outcome at all when the provider returns the
empty string — the delivery block is guarded by the truthiness of
`translatedText` (server.js:399), so the caller gets silence. -/
theorem c2_counterexample :
    jsTrim "hello" ≠ "" ∧
    sentOf (handleRequest envDeeplEmpty st0 reqHello 0) = [] ∧
    terminalCount (sentOf (handleRequest envDeeplEmpty st0 reqHello 0)) = 0 := by
  decide

/-- C2 (amended): every processed `text_input` request with non-empty
trimmed text receives exactly one terminal outcome — one success or
one typed error, never both and never neither — *provided* every
successful provider response (and every cached value) is a non-empty
string; an empty provider response instead yields silence (see the
counterexample). -/
theorem c2_exactly_one_terminal (env : Env) (st : ServerState) (req : QueuedRequest)
    (d : TextData) (now : Int)
    (htype : req.message.type = "text_input") (hdata : req.message.data = some d)
    (htext : jsTrim d.text ≠ "")
    (hcachev : ∀ e ∈ st.cache.cache, e.2 ≠ "")
    (hdeepl : ∀ a b r, env.deepl a b = .ok r → r ≠ "")
    (hgem : ∀ a k r, env.gemini a k = .ok r → r ≠ "") :
    terminalCount (sentOf (handleRequest env st req now)) = 1 := by
  have htext0 : ¬ d.text = "" := fun h => htext (by rw [h]; rfl)
  rcases hcache : st.cache.get d.text d.sourceLang d.targetLang d.persona with _ | cached
  · by_cases hnp : isNoPersona d.persona = true
    · cases htr : req.translator with
      | false =>
        simp [handleRequest, htype, hdata, htext0, htext, hcache, hnp, htr, sentOf,
          terminalCount, isTerminal]
      | true =>
        rcases hdl : env.deepl d.text ((deeplLangMap d.targetLang).getD "en-US") with e | tx
        · simp [handleRequest, htype, hdata, htext0, htext, hcache, hnp, htr, hdl, sentOf,
            terminalCount, isTerminal]
        · have hne := hdeepl _ _ _ hdl
          simp [handleRequest, htype, hdata, htext0, htext, hcache, hnp, htr, hdl, sentOf,
            terminalCount, isTerminal, deliver, hne]
    · cases hmock : env.enableMock with
      | true =>
        have hne := mockTranslate_ne_empty env.mockRand d.text d.sourceLang d.targetLang d.persona
        simp [handleRequest, htype, hdata, htext0, htext, hcache, hnp, hmock, sentOf,
          terminalCount, isTerminal, deliver, hne]
      | false =>
        have hfin := handleGemini_one_terminal env st d now hgem
        simpa [handleRequest, htype, hdata, htext0, htext, hcache, hnp, hmock] using hfin
  · have hne : cached ≠ "" := by
      obtain ⟨e, he, hv⟩ := mapGet_some_mem _ _ _ hcache
      exact hv ▸ hcachev e he
    simp [handleRequest, htype, hdata, htext0, htext, hcache, sentOf, terminalCount,
      isTerminal, deliver, hne]

/-- C2 witness: the amended theorem at the concrete DeepL scenario. -/
theorem c2_witness : terminalCount (sentOf (handleRequest envDeepl st0 reqHello 0)) = 1 :=
  c2_exactly_one_terminal envDeepl st0 reqHello ⟨"hello", "Japanese", "English", none⟩ 0
    rfl rfl (by decide) (by intro e he; simp [st0] at he)
    (by
      intro a b r h
      simp only [envDeepl] at h
      cases h
      decide)
    (by
      intro a k r h
      simp only [envDeepl] at h
      cases h)

/-! ## Retry policy on the Gemini path (C7) -/

/-- Routing of a non-empty, uncached, styled-persona request with mock
mode off: it goes to the Gemini branch. -/
theorem handleRequest_gemini_route (env : Env) (st : ServerState) (req : QueuedRequest)
    (d : TextData) (now : Int)
    (htype : req.message.type = "text_input") (hdata : req.message.data = some d)
    (htext : jsTrim d.text ≠ "")
    (hmiss : st.cache.get d.text d.sourceLang d.targetLang d.persona = none)
    (hpersona : isNoPersona d.persona = false)
    (hmock : env.enableMock = false) :
    handleRequest env st req now = handleGemini env st d now := by
  have htext0 : ¬ d.text = "" := fun h => htext (by rw [h]; rfl)
  simp [handleRequest, htype, hdata, htext0, htext, hmiss, hpersona, hmock]

/-- C7 counterexample: with a *single* credential, a quota-shaped
provider error is retried on that very same credential (index 0 is
called twice) and the retry's success is delivered — the claim instead
requires the retry to go to a *different* credential and, when none
exists, a quota-exceeded error to be surfaced. -/
theorem c7_counterexample :
    callsOf (handleRequest envQuotaRetry stOneKey reqCat 0) =
      [PCall.gemini 0 (geminiContents (systemInstruction "Japanese" "English" "cat") "hi"),
       PCall.gemini 0 (geminiContents (systemInstruction "Japanese" "English" "cat") "hi")] ∧
    (sentOf (handleRequest envQuotaRetry stOneKey reqCat 0)).filter isTerminal =
      [OutMsg.text "meow"] ∧
    (sentOf (handleRequest envQuotaRetry stOneKey reqCat 0)).filter isQuotaMsg = [] := by
  decide

/-- C7 (amended): on a quota-shaped provider error the scheduler
records consumption on the credential that failed and attempts exactly
one retry on the first credential whose limiter then allows (priority
order) — which may be the *same* credential that just failed; if no
credential is available, or the retry also fails, a quota-exceeded
(`rate_limit`) outcome is surfaced; a non-quota provider error is
never retried and surfaces as a generic translation failure. -/
theorem c7_retry_first_available (env : Env) (st : ServerState) (req : QueuedRequest)
    (d : TextData) (now : Int) (k : KeyItem)
    (htype : req.message.type = "text_input") (hdata : req.message.data = some d)
    (htext : jsTrim d.text ≠ "")
    (hmiss : st.cache.get d.text d.sourceLang d.targetLang d.persona = none)
    (hpersona : isNoPersona d.persona = false)
    (hmock : env.enableMock = false)
    (hallowed : (getAggregatedStatus st.pool now).1.allowed = true)
    (hkey : (getAvailableKey (getAggregatedStatus st.pool now).2 now).1 = some k) :
    (∀ e, env.gemini 0 k.index = .error e → isQuotaError e.status e.message = false →
       callsOf (handleRequest env st req now) =
         [PCall.gemini k.index (geminiContents (systemInstruction d.sourceLang d.targetLang
           (d.persona.getD "")) d.text)] ∧
       (sentOf (handleRequest env st req now)).filter isTerminal =
         [OutMsg.errMsg ("Translation failed: " ++ e.message)]) ∧
    (∀ e, env.gemini 0 k.index = .error e → isQuotaError e.status e.message = true →
       ((getAvailableKey (recordKey (getAvailableKey (getAggregatedStatus st.pool now).2 now).2
           k.index now) now).1 = none →
         callsOf (handleRequest env st req now) =
           [PCall.gemini k.index (geminiContents (systemInstruction d.sourceLang d.targetLang
             (d.persona.getD "")) d.text)] ∧
         (sentOf (handleRequest env st req now)).filter isTerminal =
           [OutMsg.rateLimited (containsSubstr e.message "quota" || containsSubstr e.message "daily")
             60000 none none "全てのAPIキーでレートリミットに達しました。"]) ∧
       (∀ rk, (getAvailableKey (recordKey (getAvailableKey
           (getAggregatedStatus st.pool now).2 now).2 k.index now) now).1 = some rk →
         callsOf (handleRequest env st req now) =
           [PCall.gemini k.index (geminiContents (systemInstruction d.sourceLang d.targetLang
              (d.persona.getD "")) d.text),
            PCall.gemini rk.index (geminiContents (systemInstruction d.sourceLang d.targetLang
              (d.persona.getD "")) d.text)] ∧
         (∀ e2, env.gemini 1 rk.index = .error e2 →
           (sentOf (handleRequest env st req now)).filter isTerminal =
             [OutMsg.rateLimited (containsSubstr e.message "quota" || containsSubstr e.message "daily")
               60000 none none "Gemini APIのレートリミットに達しました。"]) ∧
         (∀ t2, env.gemini 1 rk.index = .ok t2 → t2 ≠ "" →
           (sentOf (handleRequest env st req now)).filter isTerminal = [OutMsg.text t2]))) := by
  rw [handleRequest_gemini_route env st req d now htype hdata htext hmiss hpersona hmock]
  refine ⟨?_, ?_⟩
  · intro e hg hq
    constructor
    · simp [handleGemini, hallowed, hkey, hg, hq, callsOf]
    · simp [handleGemini, hallowed, hkey, hg, hq, sentOf, isTerminal]
  · intro e hg hq
    refine ⟨?_, ?_⟩
    · intro hr
      constructor
      · simp [handleGemini, hallowed, hkey, hg, hq, hr, callsOf]
      · simp [handleGemini, hallowed, hkey, hg, hq, hr, sentOf, isTerminal]
    · intro rk hr
      refine ⟨?_, ?_, ?_⟩
      · rcases hg2 : env.gemini 1 rk.index with e2 | t2
        · simp [handleGemini, hallowed, hkey, hg, hq, hr, hg2, callsOf]
        · simp [handleGemini, hallowed, hkey, hg, hq, hr, hg2, callsOf]
      · intro e2 hg2
        simp [handleGemini, hallowed, hkey, hg, hq, hr, hg2, sentOf, isTerminal]
      · intro t2 hg2 hne
        simp [handleGemini, hallowed, hkey, hg, hq, hr, hg2, sentOf, isTerminal,
          deliver, hne, List.filter_append]

/-- C7 witness: the amended theorem's non-quota clause at a concrete
single-credential scenario. -/
theorem c7_witness :
    callsOf (handleRequest envGenErr stOneKey reqCat 0) =
      [PCall.gemini 0 (geminiContents (systemInstruction "Japanese" "English"
        ((some "cat").getD "")) "hi")] ∧
    (sentOf (handleRequest envGenErr stOneKey reqCat 0)).filter isTerminal =
      [OutMsg.errMsg ("Translation failed: " ++ "boom")] :=
  (c7_retry_first_available envGenErr stOneKey reqCat ⟨"hi", "Japanese", "English", some "cat"⟩ 0
    ⟨0, RateLimiter.new 5 20⟩ rfl rfl (by decide) rfl rfl rfl (by decide) (by decide)).1
    ⟨"boom", none⟩ rfl (by decide)

end LiveTranslator
